import Mathlib

/-!
Shallow embedding of `clickup_daily_to_discord.py`: a script that fetches
ClickUp tasks due within configurable windows, classifies them into an
urgent ("exam") category and a regular category, composes a textual digest
and sends it to a Discord webhook in size-bounded chunks.

Python dictionaries holding task records are modelled by the `Task`
structure below; `dict.get` with a default becomes `Option.getD`.
Network calls and other external effects are modelled by explicit
parameters (page lists for the paginated fetch, an `Except` value for the
AI request, a status function for webhook posts).
-/

namespace ClickupDigest

/-- A ClickUp tag record `{name: ...}`. `name = none` models a missing or
null `name` field (read in the source only via `tg.get("name")`, which
returns `None` in both cases). -/
structure Tag where
  name : Option String
deriving Repr, DecidableEq

/-- A raw ClickUp task record, with exactly the fields the script reads.
`due_date` is the string-encoded epoch-millisecond value (`none` models a
missing or null field, which Python's `t.get("due_date")` reads as `None`).
`status` models the nested `t.get("status", {}).get("status", ...)` lookup:
`none` when either level is missing. -/
structure Task where
  id : String
  name : Option String
  due_date : Option String
  status : Option String
  tags : Option (List Tag)
  url : Option String
deriving Repr, DecidableEq

/-- Model of Python's `int(s)` on a string: strip surrounding whitespace,
allow one optional sign, then decimal digits. Anything else raises
`ValueError` in Python, modelled as `none`. (Python additionally accepts
underscore digit separators and non-ASCII digits; ClickUp due dates are
plain ASCII decimal strings, so that generality is not modelled.) -/
def pyInt (s : String) : Option Int :=
  let stripped :=
    ((s.data.dropWhile Char.isWhitespace).reverse.dropWhile Char.isWhitespace).reverse
  match stripped with
  | [] => none
  | c :: rest =>
    let digits := if c = '-' ∨ c = '+' then rest else c :: rest
    if digits ≠ [] ∧ digits.all Char.isDigit then
      let n : Nat := digits.foldl (fun acc d => acc * 10 + (d.toNat - 48)) 0
      some (if c = '-' then -(n : Int) else (n : Int))
    else none

/-- Python truthiness of an optional string: `None` and `""` are falsy.
Used for `if not t.get("due_date")`, `if not key`, `t.get("url") or ...`,
`if not token or not webhook`, and the `CLICKUP_TEAM_ID` check. -/
def strFalsy (s : Option String) : Bool :=
  s.getD "" = ""

/-- Python's `str.lower()` as the per-character lowercase map (exact for
the ASCII tag names at issue; Python's Unicode case folding beyond ASCII
is not modelled). -/
def pyLower (s : String) : String :=
  ⟨s.data.map Char.toLower⟩

/-- `_is_exam_task(t)`: any tag whose (possibly missing) name lowercases to
"exam". `t.get("tags", [])` becomes `Option.getD`; `(tg.get("name") or "")`
becomes `Option.getD ""` (both `None` and `""` are falsy, and `"" or x = x`). -/
def is_exam_task (t : Task) : Bool :=
  let tags := t.tags.getD []
  tags.any (fun tg => pyLower (tg.name.getD "") = "exam")

/-- `_within(due_ms, end_ms)`: the upper-bound test applied in `main`'s
merge loop (the lower bound was already enforced by the fetch filter). -/
def within (due_ms end_ms : Int) : Bool :=
  due_ms ≤ end_ms

/-- Milliseconds in one day. -/
def msPerDay : Int := 86400000

/-- The timezone offset used by the script: `ZoneInfo("Asia/Bangkok")`,
a fixed UTC+7 with no daylight saving. -/
def bangkokOffsetMs : Int := 7 * 3600 * 1000

/-- Local calendar day number (days since 1970-01-01 in the given fixed
timezone offset) of an epoch-millisecond instant: the `.date()` of
`datetime.fromtimestamp(ms / 1000, tz)`, encoded as an epoch-day count. -/
def localDay (ms offsetMs : Int) : Int :=
  (ms + offsetMs).fdiv msPerDay

/-- `human_label_and_dt(due_ms, now_local, tz)`: the relative label and the
due instant's local calendar day (standing in for the returned `due_dt`,
of which only the date and weekday are used downstream).
`delta_days = (due_dt.date() - now_local.date()).days` is the difference
of local epoch-day numbers. -/
def human_label_and_dt (due_ms now_ms offsetMs : Int) : String × Int :=
  let dueDay := localDay due_ms offsetMs
  let delta_days := dueDay - localDay now_ms offsetMs
  let label :=
    if delta_days < 0 then "overdue (" ++ toString delta_days.natAbs ++ "d)"
    else if delta_days = 0 then "today"
    else if delta_days = 1 then "tomorrow"
    else "in " ++ toString delta_days ++ " days"
  (label, dueDay)

/-- Civil date (year, month, day) from an epoch-day count, the standard
days-from-civil inverse (Gregorian calendar, as used by `datetime.date`). -/
def civilFromDays (z0 : Int) : Int × Nat × Nat :=
  let z := z0 + 719468
  let era : Int := z.fdiv 146097
  let doe : Nat := (z - era * 146097).toNat
  let yoe : Nat := (doe - doe / 1460 + doe / 36524 - doe / 146096) / 365
  let doy : Nat := doe - (365 * yoe + yoe / 4 - yoe / 100)
  let mp : Nat := (5 * doy + 2) / 153
  let d : Nat := doy - (153 * mp + 2) / 5 + 1
  let m : Nat := if mp < 10 then mp + 3 else mp - 9
  let y : Int := (yoe : Int) + era * 400 + (if m ≤ 2 then 1 else 0)
  (y, m, d)

/-- Two-digit zero padding for month and day numbers. -/
def pad2 (n : Nat) : String :=
  if n < 10 then "0" ++ toString n else toString n

/-- `strftime('%Y-%m-%d')` of the local date with the given epoch-day number. -/
def fmtDate (day : Int) : String :=
  let (y, m, d) := civilFromDays day
  toString y ++ "-" ++ pad2 m ++ "-" ++ pad2 d

/-- `strftime('%a')` (C locale) of the local date with the given epoch-day
number; epoch day 0 (1970-01-01) was a Thursday. -/
def weekdayAbbr (day : Int) : String :=
  ["Mon", "Tue", "Wed", "Thu", "Fri", "Sat", "Sun"].getD ((day + 3).fmod 7).toNat "Mon"

/-- The integer due date of a task as the script reads it with
`int(t["due_date"])` at places where it is known to parse; defaults to 0
where Python would instead raise. Used as the sort key. -/
def dueKey (t : Task) : Int :=
  (t.due_date.bind pyInt).getD 0

/-- The per-record retention test inside `fetch_due_tasks`'s page loop:
skip records with a falsy (`None` or `""`) `due_date`, skip records whose
`due_date` fails `int(...)`, keep the rest exactly when the parsed value
lies in `[due_start_ms, due_end_ms]` (inclusive on both ends). -/
def keepRecord (due_start_ms due_end_ms : Int) (t : Task) : Bool :=
  if strFalsy t.due_date then false
  else
    match pyInt (t.due_date.getD "") with
    | none => false
    | some due => due_start_ms ≤ due ∧ due ≤ due_end_ms

/-- The pagination cutoff of `fetch_due_tasks`: `page_limit` is 100. -/
def page_limit : Nat := 100

/-- `fetch_due_tasks`: the upstream paginated endpoint is modelled as the
list of page batches it would return for consecutive page indices (pages
past the end of the list are empty). The loop breaks on an empty batch
before filtering, appends the retained records of the batch, and breaks
after a batch shorter than `page_limit`. -/
def fetch_due_tasks (pages : List (List Task)) (due_start_ms due_end_ms : Int) : List Task :=
  match pages with
  | [] => []
  | batch :: rest =>
    if batch.isEmpty then []
    else
      batch.filter (keepRecord due_start_ms due_end_ms) ++
        (if batch.length < page_limit then []
         else fetch_due_tasks rest due_start_ms due_end_ms)

/-- The raw records `fetch_due_tasks` actually looks at: every record of
every page up to and including the first empty or short page. The fetch
result is exactly the `keepRecord`-filter of this list. -/
def visitedRecords (pages : List (List Task)) : List Task :=
  match pages with
  | [] => []
  | batch :: rest =>
    if batch.isEmpty then []
    else batch ++ (if batch.length < page_limit then [] else visitedRecords rest)

/-- `_format_task_block(t, now_local, tz)`: one task's detail block.
In the source a tag rendered by `f"#{tag['name']}"` with a null name
formats as `#None`, which the `none` branch reproduces. -/
def format_task_block (t : Task) (now_ms offsetMs : Int) : String :=
  let ld := human_label_and_dt (dueKey t) now_ms offsetMs
  let label := ld.1
  let dueDay := ld.2
  let weekday := weekdayAbbr dueDay
  let name := t.name.getD "(no title)"
  let url := if strFalsy t.url then "https://app.clickup.com/t/" ++ t.id else t.url.getD ""
  let status := t.status.getD "unknown"
  let tag_list := t.tags.getD []
  let tags_str :=
    if tag_list.isEmpty then "-"
    else " ".intercalate (tag_list.map (fun tag => "#" ++ tag.name.getD "None"))
  let icon := if is_exam_task t then "🎓" else "📝"
  icon ++ " " ++ name ++ "\n" ++
    "   • Status: " ++ status ++ "\n" ++
    "   • Tags: " ++ tags_str ++ "\n" ++
    "   • Due: " ++ label ++ " (" ++ fmtDate dueDay ++ " " ++ weekday ++ ")\n" ++
    "   • Link: <" ++ url ++ ">"

/-- `ai_summarize_tasks(tasks, now_local, tz)`: the Groq call. `key` is
`os.getenv("GROQ_API_KEY")`; the guard `if not key or not tasks` returns
`None` before any of the request-building code runs. Everything inside the
`try` (the `groq` import, the network call, response decoding) is modelled
by `response`: `.ok s` is the returned message content, `.error` is any
raised exception, which the bare `except` turns into `None`. -/
def ai_summarize_tasks (key : Option String) (tasks : List Task)
    (response : Except Unit String) : Option String :=
  if strFalsy key ∨ tasks.isEmpty then none
  else
    match response with
    | .error _ => none
    | .ok s => some s.trim

/-- `sorted(tasks, key=lambda t: int(t["due_date"]))`: Python's stable
Timsort, modelled by the stable `List.mergeSort` on the same key. -/
def tasks_sorted (tasks : List Task) : List Task :=
  tasks.mergeSort (fun a b => dueKey a ≤ dueKey b)

/-- The exam partition of `build_discord_message`. -/
def examsOf (tasks : List Task) : List Task :=
  (tasks_sorted tasks).filter (fun t => is_exam_task t)

/-- The non-exam partition of `build_discord_message`. -/
def othersOf (tasks : List Task) : List Task :=
  (tasks_sorted tasks).filter (fun t => !is_exam_task t)

/-- `total_count = len(exam_blocks) + len(other_blocks)`. -/
def total_count (tasks : List Task) : Nat :=
  (examsOf tasks).length + (othersOf tasks).length

/-- `exam_blocks = [_format_task_block(t, ...) for t in exams]`. -/
def exam_blocks (tasks : List Task) (now_ms offsetMs : Int) : List String :=
  (examsOf tasks).map (fun t => format_task_block t now_ms offsetMs)

/-- `other_blocks = [_format_task_block(t, ...) for t in others]`. -/
def other_blocks (tasks : List Task) (now_ms offsetMs : Int) : List String :=
  (othersOf tasks).map (fun t => format_task_block t now_ms offsetMs)

/-- The `sections` list assembled by `build_discord_message` in the
non-empty case: the optional AI-summary block (present only when the
summary is truthy, i.e. neither `None` nor `""`), then the exam section,
a delimiter, and the work section. -/
def sectionsOf (tasks : List Task) (now_ms offsetMs : Int)
    (days_ahead exam_days_ahead : Int) (groq_key : Option String)
    (ai_response : Except Unit String) : List String :=
  let ai_summary := ai_summarize_tasks groq_key (tasks_sorted tasks) ai_response
  (match ai_summary with
   | some s =>
     if s ≠ "" then ["🤖 **AI Summary**", s, "--------------------------------------"] else []
   | none => []) ++
  ["📚 Upcoming Exams (next " ++ toString exam_days_ahead ++ " days) — [" ++
      toString (exam_blocks tasks now_ms offsetMs).length ++ " exams]",
   if (exam_blocks tasks now_ms offsetMs).isEmpty then "   • None"
     else "\n\n".intercalate (exam_blocks tasks now_ms offsetMs),
   "--------------------------------------",
   "🗓️ Work due Soon (next " ++ toString days_ahead ++ " days) — [" ++
      toString (other_blocks tasks now_ms offsetMs).length ++ " works]",
   if (other_blocks tasks now_ms offsetMs).isEmpty then "   • None"
     else "\n\n".intercalate (other_blocks tasks now_ms offsetMs)]

/-- The delimiter line of the digest envelope. -/
def envLine : String := "==================================="

/-- `build_discord_message(tasks, now_local, tz, days_ahead, exam_days_ahead)`:
the `content` string of the returned payload. The empty-input case
short-circuits to the fixed zero-count envelope. -/
def build_discord_message (tasks : List Task) (now_ms offsetMs : Int)
    (days_ahead exam_days_ahead : Int) (groq_key : Option String)
    (ai_response : Except Unit String) : String :=
  if tasks.isEmpty then
    envLine ++ "\n" ++
      "📅 Daily Check (" ++ fmtDate (localDay now_ms offsetMs) ++ ") (0 works)\n" ++
      "- No tasks due soon.\n" ++ envLine
  else
    let body :=
      ("\n".intercalate
        (sectionsOf tasks now_ms offsetMs days_ahead exam_days_ahead groq_key ai_response)).trim
    envLine ++ "\n" ++
      "📅 Daily Check (" ++ fmtDate (localDay now_ms offsetMs) ++ ") (" ++
      toString (total_count tasks) ++ " works)\n\n" ++
      body ++ "\n" ++ envLine

/-- `MAX_LEN` in `send_discord_message`: Discord's 2000-char content limit
minus a safety margin. -/
def MAX_LEN : Nat := 1900

/-- The chunking in `send_discord_message`:
`[text[i:i+MAX_LEN] for i in range(0, len(text), MAX_LEN)]`, with the text
as a character list and the slice `text[i:i+M]` as `take M (drop i)`.
`range(0, L, M)` has `⌈L/M⌉` elements `0, M, 2M, ...`. -/
def send_parts (text : List Char) : List (List Char) :=
  (List.range ((text.length + MAX_LEN - 1) / MAX_LEN)).map
    (fun i => (text.drop (i * MAX_LEN)).take MAX_LEN)

/-- The posting loop of `send_discord_message`: `statusOf i` is the HTTP
status of the `i`-th webhook post. On the first non-2xx status the script
prints the failure and calls `sys.exit(4)`, modelled as `some 4`; `none`
means every chunk was delivered. -/
def send_loop (statusOf : Nat → Nat) : Nat → List (List Char) → Option Nat
  | _, [] => none
  | i, _ :: rest =>
    if 200 ≤ statusOf i ∧ statusOf i < 300 then send_loop statusOf (i + 1) rest
    else some 4

/-- `send_discord_message(webhook, text)`: chunk, then post each part in
order, failing fast with exit code 4. -/
def send_discord_message (statusOf : Nat → Nat) (text : List Char) : Option Nat :=
  send_loop statusOf 0 (send_parts text)

/-- `start_local = now_local.replace(hour=0, minute=0, second=0, microsecond=0)`
converted to epoch milliseconds: local midnight of the current local day. -/
def start_ms (now_ms offsetMs : Int) : Int :=
  localDay now_ms offsetMs * msPerDay - offsetMs

/-- `(start_local + timedelta(days=days)).replace(hour=23, minute=59,
second=59, microsecond=0)` converted to epoch milliseconds: one second
before midnight, `days` local days ahead. -/
def end_of_day_ms (now_ms offsetMs : Int) (days : Int) : Int :=
  (localDay now_ms offsetMs + days) * msPerDay + 86399000 - offsetMs

/-- The window re-partitioning loop in `main`: `due = int(t["due_date"])`
(a missing key or unparseable value is caught and skipped), then an
exam-tagged task is kept iff `_within(due, end_ms_exam)` and a non-exam
task iff `_within(due, end_ms_other)`. -/
def merged_filter (all_tasks : List Task) (end_ms_exam end_ms_other : Int) : List Task :=
  all_tasks.filter (fun t =>
    match t.due_date with
    | none => false
    | some s =>
      match pyInt s with
      | none => false
      | some due => if is_exam_task t then within due end_ms_exam else within due end_ms_other)

/-- The urgent (exam) category as composed by the pipeline: fetch with the
larger window `[start_ms, end_ms_exam]`, re-partition per task, then the
exam side of `build_discord_message`'s partition. -/
def classified_urgent (pages : List (List Task)) (start_v end_exam end_other : Int) : List Task :=
  examsOf (merged_filter (fetch_due_tasks pages start_v end_exam) end_exam end_other)

/-- The regular category as composed by the pipeline. -/
def classified_regular (pages : List (List Task)) (start_v end_exam end_other : Int) : List Task :=
  othersOf (merged_filter (fetch_due_tasks pages start_v end_exam) end_exam end_other)

/-- All inputs `main` draws from its environment: configuration values,
the workspace listing, the user-id lookup, the upstream pages (as a
function of the assignee filter actually applied), whether the fetch
raised (`some true` for `requests.HTTPError`, `some false` for any other
exception), the Groq inputs, and the webhook's status per post. -/
structure MainWorld where
  token : Option String
  team_id : Option String
  webhook : Option String
  days_ahead : Int
  exam_days_ahead : Int
  only_me : Bool
  teams : List (String × String)
  user_lookup : Except String Int
  now_ms : Int
  pages : Option Int → List (List Task)
  fetch_exc : Option Bool
  groq_key : Option String
  ai_response : Except Unit String
  statusOf : Nat → Nat

/-- The `assignee_id` variable after the `ONLY_ASSIGNED_TO_ME` block: it
starts as `None`; when the flag is set, a successful `get_my_user_id`
stores the id, and any exception only prints a warning and leaves it
`None`. -/
def assignee_resolved (only_me : Bool) (user_lookup : Except String Int) : Option Int :=
  if only_me then
    match user_lookup with
    | .ok i => some i
    | .error _ => none
  else none

/-- The digest `main` composes on its success path: fetch the larger
window once (with the resolved assignee filter), re-partition by each
task's applicable window, and build the message. -/
def digest_content (w : MainWorld) : String :=
  let start_v := start_ms w.now_ms bangkokOffsetMs
  let end_exam := end_of_day_ms w.now_ms bangkokOffsetMs w.exam_days_ahead
  let end_other := end_of_day_ms w.now_ms bangkokOffsetMs w.days_ahead
  let a := assignee_resolved w.only_me w.user_lookup
  let all_tasks := fetch_due_tasks (w.pages a) start_v end_exam
  let merged := merged_filter all_tasks end_exam end_other
  build_discord_message merged w.now_ms bangkokOffsetMs
    w.days_ahead w.exam_days_ahead w.groq_key w.ai_response

/-- `main()`: exit code together with the digest content that was built
and handed to `send_discord_message` (`none` when the run terminated
before composing a digest). Exit codes as in the source: 2 for missing
token/webhook, 2 when no workspaces are found, 1 when a workspace id must
be chosen from the printed list, 3 for a fetch exception, 4 for a
delivery failure, 0 for success (falling off the end of `main`). -/
def main_run (w : MainWorld) : Nat × Option String :=
  if strFalsy w.token ∨ strFalsy w.webhook then (2, none)
  else if strFalsy w.team_id then
    if w.teams.isEmpty then (2, none) else (1, none)
  else
    match w.fetch_exc with
    | some _ => (3, none)
    | none =>
      match send_discord_message w.statusOf (digest_content w).data with
      | some c => (c, some (digest_content w))
      | none => (0, some (digest_content w))

/-- A run whose required configuration is missing (`CLICKUP_TOKEN` unset):
the missing-configuration error class. -/
def worldMissingConfig : MainWorld :=
  ⟨none, some "42", some "https://hook", 7, 14, false, [], Except.ok 1, 0,
    fun _ => [], none, none, Except.error (), fun _ => 200⟩

/-- A run with full configuration except `CLICKUP_TEAM_ID`, whose token
owns no workspaces: the no-workspaces-available error class. -/
def worldNoTeams : MainWorld :=
  ⟨some "tok", none, some "https://hook", 7, 14, false, [], Except.ok 1, 0,
    fun _ => [], none, none, Except.error (), fun _ => 200⟩

/-- A concrete untagged record due on day 1 (epoch ms "86400000"); used by
witnesses mirroring the spec's end-to-end scenario. -/
def taskA : Task := ⟨"A", some "Task A", some "86400000", some "open", none, none⟩

/-- A concrete exam-tagged record due on day 9 (epoch ms "777600000"). -/
def taskExamB : Task :=
  ⟨"B", some "Task B", some "777600000", some "to do", some [⟨some "exam"⟩], none⟩

/-- A concrete exam-tagged record due on day 31 (epoch ms "2678400000"),
outside a 14-day urgent window that starts at the epoch. -/
def taskExamC : Task :=
  ⟨"C", some "Task C", some "2678400000", none, some [⟨some "EXAM"⟩], none⟩

/-! ## Helper lemmas -/

/-- Joining the first `k` chunks reconstructs the first `k * MAX_LEN`
characters. -/
theorem join_range_chunks (s : List Char) (k : Nat) :
    ((List.range k).map (fun i => (s.drop (i * MAX_LEN)).take MAX_LEN)).flatten
      = s.take (k * MAX_LEN) := by
  induction k with
  | zero => simp
  | succ n ih =>
    rw [List.range_succ, List.map_append, List.flatten_append, ih]
    simp [Nat.succ_mul, List.take_add]

/-- `String.intercalate.go` only ever appends to its accumulator. -/
theorem intercalate_go_append (as : List String) :
    ∀ acc s : String, ∃ r, String.intercalate.go acc s as = acc ++ r := by
  induction as with
  | nil => intro acc s; exact ⟨"", by simp [String.intercalate.go]⟩
  | cons a as ih =>
    intro acc s
    obtain ⟨r, hr⟩ := ih (acc ++ s ++ a) s
    refine ⟨s ++ a ++ r, ?_⟩
    simp only [String.intercalate.go]
    simp only [← String.append_assoc]
    exact hr

/-- Joining a nonempty list of strings starts with the first string. -/
theorem intercalate_cons_eq (s a : String) (as : List String) :
    ∃ r, String.intercalate s (a :: as) = a ++ r := by
  obtain ⟨r, hr⟩ := intercalate_go_append as a s
  exact ⟨r, hr⟩

/-- Strings whose first characters differ are different. -/
theorem ne_of_data_head (s t : String) (h : s.data.head? ≠ t.data.head?) : s ≠ t :=
  fun he => h (he ▸ rfl)

/-- Every task block starts with its category icon. -/
theorem format_task_block_head (t : Task) (now_ms offsetMs : Int) :
    (format_task_block t now_ms offsetMs).data.head? =
      some (if is_exam_task t then '🎓' else '📝') := by
  cases h : is_exam_task t <;> simp [format_task_block, h]

/-- Neither the "None" placeholder nor a join of task blocks is the
AI-summary heading. -/
theorem block_section_ne_ai (ts : List Task) (now_ms offsetMs : Int) :
    (if (ts.map fun t => format_task_block t now_ms offsetMs).isEmpty then "   • None"
      else "\n\n".intercalate (ts.map fun t => format_task_block t now_ms offsetMs))
      ≠ "🤖 **AI Summary**" := by
  cases ts with
  | nil => simp
  | cons t ts' =>
    simp only [List.map_cons, List.isEmpty_cons, Bool.false_eq_true, if_false]
    obtain ⟨r, hr⟩ := intercalate_cons_eq "\n\n" (format_task_block t now_ms offsetMs)
      (ts'.map fun t => format_task_block t now_ms offsetMs)
    rw [hr]
    apply ne_of_data_head
    simp only [String.data_append, List.head?_append, format_task_block_head, Option.or_some]
    cases h : is_exam_task t <;> simp [h]

/-- The work-section heading is not the AI-summary heading. -/
theorem heading_work_ne_ai (x y : String) :
    "🗓️ Work due Soon (next " ++ x ++ " days) — [" ++ y ++ " works]" ≠ "🤖 **AI Summary**" := by
  apply ne_of_data_head
  simp only [String.data_append, List.head?_append]
  rw [show ("🗓️ Work due Soon (next ").data.head? = some '🗓' from rfl]
  simp only [Option.or_some]
  decide

/-- The exam-section heading is not the AI-summary heading. -/
theorem heading_exam_ne_ai (x y : String) :
    "📚 Upcoming Exams (next " ++ x ++ " days) — [" ++ y ++ " exams]" ≠ "🤖 **AI Summary**" := by
  apply ne_of_data_head
  simp only [String.data_append, List.head?_append]
  rw [show ("📚 Upcoming Exams (next ").data.head? = some '📚' from rfl]
  simp only [Option.or_some]
  decide

/-- The sort comparison on due keys is transitive. -/
theorem dueLe_trans : ∀ (a b c : Task), decide (dueKey a ≤ dueKey b) = true →
    decide (dueKey b ≤ dueKey c) = true → decide (dueKey a ≤ dueKey c) = true := by
  intro a b c hab hbc
  simp only [decide_eq_true_eq] at *
  omega

/-- The sort comparison on due keys is total. -/
theorem dueLe_total : ∀ (a b : Task),
    (decide (dueKey a ≤ dueKey b) || decide (dueKey b ≤ dueKey a)) = true := by
  intro a b
  simp only [Bool.or_eq_true, decide_eq_true_eq]
  omega

/-- The sorted task list is ascending in the due key. -/
theorem tasks_sorted_pairwise (tasks : List Task) :
    (tasks_sorted tasks).Pairwise (fun a b => dueKey a ≤ dueKey b) := by
  have h := List.sorted_mergeSort dueLe_trans dueLe_total tasks
  exact h.imp (fun hab => by simpa using hab)

/-- Stability of the sort: filtering to any single due-key value commutes
with sorting, i.e. equal-key tasks keep their input order. -/
theorem stable_filter_const (tasks : List Task) (d : Int) (p : Task → Bool)
    (hp : ∀ a, p a = true → dueKey a = d) :
    (tasks_sorted tasks).filter p = tasks.filter p := by
  have hc : (tasks.filter p).Pairwise
      (fun a b : Task => decide (dueKey a ≤ dueKey b) = true) := by
    apply List.pairwise_of_forall_mem_list
    intro a ha b hb
    rw [List.mem_filter] at ha hb
    have h1 := hp a ha.2
    have h2 := hp b hb.2
    simp [decide_eq_true_eq, h1, h2]
  have hsub : List.Sublist (tasks.filter p) (tasks_sorted tasks) :=
    List.sublist_mergeSort dueLe_trans dueLe_total hc (List.filter_sublist tasks)
  have hself : (tasks.filter p).filter p = tasks.filter p :=
    List.filter_eq_self.mpr (fun a ha => (List.mem_filter.mp ha).2)
  have hsub2 : List.Sublist (tasks.filter p) ((tasks_sorted tasks).filter p) := by
    have := hsub.filter p
    rwa [hself] at this
  have hperm : List.Perm ((tasks_sorted tasks).filter p) (tasks.filter p) :=
    (List.mergeSort_perm tasks _).filter p
  exact (hsub2.eq_of_length hperm.length_eq.symm).symm

/-- The fetch loop retains exactly the `keepRecord`-passing records of the
pages it visits. -/
theorem fetch_eq_filter_visited (pages : List (List Task)) (lo hi : Int) :
    fetch_due_tasks pages lo hi = (visitedRecords pages).filter (keepRecord lo hi) := by
  induction pages with
  | nil => rfl
  | cons b rest ih =>
    simp only [fetch_due_tasks, visitedRecords]
    by_cases hb : b.isEmpty
    · simp [hb]
    · simp only [hb, Bool.false_eq_true, if_false, List.filter_append]
      by_cases hl : b.length < page_limit
      · simp [hl]
      · simp [hl, ih]

/-- For a record with a parseable due date, the fetch retention test is
exactly the inclusive bounds check. -/
theorem keepRecord_parse (lo hi : Int) (t : Task) (s : String) (d : Int)
    (hs : t.due_date = some s) (hd : pyInt s = some d) :
    keepRecord lo hi t = decide (lo ≤ d ∧ d ≤ hi) := by
  unfold keepRecord strFalsy
  rw [hs]
  by_cases hse : s = ""
  · subst hse
    rw [show pyInt "" = none from rfl] at hd
    exact absurd hd (by simp)
  · simp [hse, hd]

/-- The posting loop can only fail with exit code 4. -/
theorem send_loop_eq_four (statusOf : Nat → Nat) :
    ∀ (parts : List (List Char)) (i c : Nat),
      send_loop statusOf i parts = some c → c = 4 := by
  intro parts
  induction parts with
  | nil => intro i c hc; exact absurd hc (by simp [send_loop])
  | cons p rest ih =>
    intro i c hc
    rw [send_loop] at hc
    by_cases hok : 200 ≤ statusOf i ∧ statusOf i < 300
    · rw [if_pos hok] at hc
      exact ih (i + 1) c hc
    · rw [if_neg hok] at hc
      exact (Option.some.inj hc).symm

end ClickupDigest

/-! ## Claims -/

namespace ClickupDigest

/-- C2. Delivery chunking: for a text of length `L` and the sink's maximum
chunk size `MAX_LEN = 1900`, `send_discord_message` posts exactly
`⌈L / 1900⌉` chunks, each of length at most 1900, and their in-order
concatenation is exactly the original text; a 4500-character text yields
exactly the chunk sizes 1900, 1900, 700. -/
theorem send_parts_chunking (text : List Char) :
    (send_parts text).length = (text.length + MAX_LEN - 1) / MAX_LEN ∧
    (∀ c ∈ send_parts text, c.length ≤ MAX_LEN) ∧
    (send_parts text).flatten = text ∧
    (text.length = 4500 → (send_parts text).map List.length = [1900, 1900, 700]) := by
  refine ⟨by simp [send_parts], ?_, ?_, ?_⟩
  · intro c hc
    simp only [send_parts, List.mem_map] at hc
    obtain ⟨i, -, rfl⟩ := hc
    simp [List.length_take]
  · rw [send_parts, join_range_chunks]
    apply List.take_of_length_le
    have h2 : (text.length + MAX_LEN - 1) % MAX_LEN < MAX_LEN :=
      Nat.mod_lt _ (by simp [MAX_LEN])
    have h1 := Nat.div_add_mod (text.length + MAX_LEN - 1) MAX_LEN
    simp only [MAX_LEN] at h1 h2 ⊢
    omega
  · intro h
    have h3 : (text.length + MAX_LEN - 1) / MAX_LEN = 3 := by norm_num [h, MAX_LEN]
    rw [send_parts, h3]
    have hr : List.range 3 = [0, 1, 2] := by decide
    rw [hr]
    simp [List.length_take, List.length_drop, h, MAX_LEN]

/-- C2, evaluated: a concrete 4500-character text is sent as chunks of
sizes 1900, 1900, 700. -/
theorem send_parts_chunking_witness :
    (send_parts (List.replicate 4500 'a')).map List.length = [1900, 1900, 700] :=
  (send_parts_chunking (List.replicate 4500 'a')).2.2.2 (by rw [List.length_replicate])

/-- C3. The relative label is a pure function of the due instant, the
reference now and the timezone offset, through
`delta_days = localDay due - localDay now` (the floor difference of local
calendar days): negative `delta_days` gives "overdue (Xd)" with
`X = |delta_days|`, zero gives "today", one gives "tomorrow", and larger
values give "in X days". -/
theorem human_label_cases (due_ms now_ms offsetMs : Int) :
    (localDay due_ms offsetMs - localDay now_ms offsetMs < 0 →
      (human_label_and_dt due_ms now_ms offsetMs).1 =
        "overdue (" ++ toString (localDay due_ms offsetMs - localDay now_ms offsetMs).natAbs
          ++ "d)") ∧
    (localDay due_ms offsetMs - localDay now_ms offsetMs = 0 →
      (human_label_and_dt due_ms now_ms offsetMs).1 = "today") ∧
    (localDay due_ms offsetMs - localDay now_ms offsetMs = 1 →
      (human_label_and_dt due_ms now_ms offsetMs).1 = "tomorrow") ∧
    (1 < localDay due_ms offsetMs - localDay now_ms offsetMs →
      (human_label_and_dt due_ms now_ms offsetMs).1 =
        "in " ++ toString (localDay due_ms offsetMs - localDay now_ms offsetMs) ++ " days") := by
  refine ⟨fun h => ?_, fun h => ?_, fun h => ?_, fun h => ?_⟩
  · simp [human_label_and_dt, h]
  · simp [human_label_and_dt, h]
  · have h0 : ¬ localDay due_ms offsetMs - localDay now_ms offsetMs < 0 := by omega
    have h1 : ¬ localDay due_ms offsetMs - localDay now_ms offsetMs = 0 := by omega
    simp [human_label_and_dt, h, h0, h1]
  · have h0 : ¬ localDay due_ms offsetMs - localDay now_ms offsetMs < 0 := by omega
    have h1 : ¬ localDay due_ms offsetMs - localDay now_ms offsetMs = 0 := by omega
    have h2 : ¬ localDay due_ms offsetMs - localDay now_ms offsetMs = 1 := by omega
    simp [human_label_and_dt, h0, h1, h2]

/-- C3, evaluated at the spec's four sample deltas (offset 0, now at the
epoch): delta -2 → "overdue (2d)", 0 → "today", 1 → "tomorrow",
5 → "in 5 days". -/
theorem human_label_cases_witness :
    (human_label_and_dt (-172800000) 0 0).1 = "overdue (2d)" ∧
    (human_label_and_dt 0 0 0).1 = "today" ∧
    (human_label_and_dt 86400000 0 0).1 = "tomorrow" ∧
    (human_label_and_dt 432000000 0 0).1 = "in 5 days" := by
  refine ⟨?_, (human_label_cases 0 0 0).2.1 (by decide),
    (human_label_cases 86400000 0 0).2.2.1 (by decide), ?_⟩
  · rw [(human_label_cases (-172800000) 0 0).1 (by decide)]; decide
  · rw [(human_label_cases 432000000 0 0).2.2.2 (by decide)]; decide

/-- C10. `_is_exam_task` is total and never raises in the modelled cases:
it returns `false` (not an error) when the tags field is absent, when the
tags list is empty, and when every tag's name is missing or null; a
null-named tag is simply a non-match, so the result only depends on the
remaining tags. -/
theorem is_exam_task_total (t : Task) :
    (t.tags = none → is_exam_task t = false) ∧
    (t.tags = some [] → is_exam_task t = false) ∧
    (∀ tags, t.tags = some tags → (∀ tg ∈ tags, tg.name = none) →
      is_exam_task t = false) ∧
    (∀ rest, t.tags = some (⟨none⟩ :: rest) →
      is_exam_task t = rest.any (fun tg => pyLower (tg.name.getD "") = "exam")) := by
  refine ⟨fun h => ?_, fun h => ?_, fun tags h hn => ?_, fun rest h => ?_⟩
  · simp [is_exam_task, h]
  · simp [is_exam_task, h]
  · simp only [is_exam_task, h, Option.getD_some, List.any_eq_false]
    intro tg htg
    rw [hn tg htg]
    decide
  · simp only [is_exam_task, h, Option.getD_some, List.any_cons]
    rw [show (decide (pyLower (Option.getD (none : Option String) "") = "exam")) = false
      from by decide]
    rw [Bool.false_or]

/-- C10, evaluated: a task whose only tags are a null-named tag and an
"Exam" tag is still recognised, and one with only null-named tags is not. -/
theorem is_exam_task_total_witness :
    is_exam_task (Task.mk "1" none none none (some [⟨none⟩]) none) = false ∧
    is_exam_task (Task.mk "2" none none none (some [⟨none⟩, ⟨some "Exam"⟩]) none) = true := by
  constructor
  · exact (is_exam_task_total _).2.2.1 [⟨none⟩] rfl
      (by intro tg htg; simp at htg; rw [htg])
  · rw [(is_exam_task_total _).2.2.2 [⟨some "Exam"⟩] rfl]; decide

/-- C8. When no summarization credential is configured,
`ai_summarize_tasks` returns `None` independently of any would-be network
response (the guard short-circuits before the request is built), and the
composed sections then never contain the AI-summary heading, whatever the
tasks hold; any exception inside the summarizer is swallowed into `None`,
so a failing summarizer yields exactly the digest of an absent one. -/
theorem ai_summary_absent (tasks : List Task)
    (now_ms offsetMs days_ahead exam_days_ahead : Int)
    (key : Option String) (resp : Except Unit String) (u : Unit) :
    ai_summarize_tasks none tasks resp = none ∧
    ai_summarize_tasks key tasks (Except.error u) = none ∧
    "🤖 **AI Summary**" ∉ sectionsOf tasks now_ms offsetMs days_ahead exam_days_ahead none resp ∧
    build_discord_message tasks now_ms offsetMs days_ahead exam_days_ahead key
        (Except.error u) =
      build_discord_message tasks now_ms offsetMs days_ahead exam_days_ahead none resp := by
  have h1 : ∀ (ts : List Task) (r : Except Unit String),
      ai_summarize_tasks none ts r = none := by
    intro ts r
    simp [ai_summarize_tasks, strFalsy]
  have h2 : ∀ (k : Option String) (ts : List Task),
      ai_summarize_tasks k ts (Except.error u) = none := by
    intro k ts
    unfold ai_summarize_tasks
    split
    · rfl
    · rfl
  refine ⟨h1 tasks resp, h2 key tasks, ?_, ?_⟩
  · simp only [sectionsOf, h1, List.nil_append]
    intro hmem
    simp only [List.mem_cons, List.not_mem_nil, or_false] at hmem
    rcases hmem with h | h | h | h | h
    · exact heading_exam_ne_ai _ _ h.symm
    · exact block_section_ne_ai (examsOf tasks) now_ms offsetMs h.symm
    · exact absurd h (by decide)
    · exact heading_work_ne_ai _ _ h.symm
    · exact block_section_ne_ai (othersOf tasks) now_ms offsetMs h.symm
  · simp only [build_discord_message, sectionsOf, h1, h2]

/-- C5. On empty input the composer emits exactly the fixed zero-count
"no tasks due" envelope; on non-empty input it emits the envelope whose
header count is `total_count`, which equals the urgent count plus the
regular count (and also the full input count, since the partition is
exhaustive). -/
theorem build_message_envelope (tasks : List Task)
    (now_ms offsetMs days_ahead exam_days_ahead : Int)
    (key : Option String) (resp : Except Unit String) :
    build_discord_message [] now_ms offsetMs days_ahead exam_days_ahead key resp =
      envLine ++ "\n" ++
        "📅 Daily Check (" ++ fmtDate (localDay now_ms offsetMs) ++ ") (0 works)\n" ++
        "- No tasks due soon.\n" ++ envLine ∧
    (tasks ≠ [] →
      build_discord_message tasks now_ms offsetMs days_ahead exam_days_ahead key resp =
        envLine ++ "\n" ++
          "📅 Daily Check (" ++ fmtDate (localDay now_ms offsetMs) ++ ") (" ++
          toString (total_count tasks) ++ " works)\n\n" ++
          ("\n".intercalate
            (sectionsOf tasks now_ms offsetMs days_ahead exam_days_ahead key resp)).trim ++
          "\n" ++ envLine) ∧
    total_count tasks = (examsOf tasks).length + (othersOf tasks).length ∧
    total_count tasks = tasks.length := by
  refine ⟨rfl, fun h => ?_, rfl, ?_⟩
  · have hne : tasks.isEmpty = false := by
      cases tasks
      · exact absurd rfl h
      · rfl
    simp only [build_discord_message, hne, Bool.false_eq_true, if_false]
  · have hp := List.length_eq_length_filter_add (l := tasks_sorted tasks)
      (fun t => is_exam_task t)
    simp only [total_count, examsOf, othersOf]
    rw [← hp, tasks_sorted, List.length_mergeSort]

/-- C5, evaluated: the envelope of a one-task digest carries its header
count. -/
theorem build_message_envelope_witness :
    build_discord_message [taskA] 0 0 7 14 none (Except.error ()) =
      envLine ++ "\n" ++
        "📅 Daily Check (" ++ fmtDate (localDay 0 0) ++ ") (" ++
        toString (total_count [taskA]) ++ " works)\n\n" ++
        ("\n".intercalate (sectionsOf [taskA] 0 0 7 14 none (Except.error ()))).trim ++
        "\n" ++ envLine :=
  (build_message_envelope [taskA] 0 0 7 14 none (Except.error ())).2.1 (by simp)

/-- C4. The two category sequences handed to the composer are each sorted
ascending by due date, and the sort is stable on ties: for every due value
`d`, the category's tasks due at `d` appear in exactly their original
fetch order (the category filter of the input, unreordered). -/
theorem classifier_sorted_stable (tasks : List Task) (d : Int) :
    (examsOf tasks).Pairwise (fun a b => dueKey a ≤ dueKey b) ∧
    (othersOf tasks).Pairwise (fun a b => dueKey a ≤ dueKey b) ∧
    (examsOf tasks).filter (fun t => decide (dueKey t = d)) =
      tasks.filter (fun t => decide (dueKey t = d) && is_exam_task t) ∧
    (othersOf tasks).filter (fun t => decide (dueKey t = d)) =
      tasks.filter (fun t => decide (dueKey t = d) && !is_exam_task t) := by
  refine ⟨(tasks_sorted_pairwise tasks).filter _,
    (tasks_sorted_pairwise tasks).filter _, ?_, ?_⟩
  · rw [examsOf, List.filter_filter]
    exact stable_filter_const tasks d _ (fun a ha => by
      simp only [Bool.and_eq_true, decide_eq_true_eq] at ha
      exact ha.1)
  · rw [othersOf, List.filter_filter]
    exact stable_filter_const tasks d _ (fun a ha => by
      simp only [Bool.and_eq_true, decide_eq_true_eq] at ha
      exact ha.1)

/-- C1. Classification is exhaustive and exclusive over the fetched pages:
a record with a parseable due date `d` lands in the urgent category iff it
is exam-tagged and `d` lies in the urgent window
`[start_ms, end_ms_exam]`, in the regular category iff it is untagged and
`d` lies in the regular window `[start_ms, end_ms_other]`, and never in
both; in particular an exam-tagged task due outside the urgent window is
in neither category (never demoted to regular). Requires the regular
window to end no later than the urgent one, as the source's
fetch-once-filter-twice strategy assumes. -/
theorem classification_correct (pages : List (List Task))
    (start_v end_exam end_other : Int) (h : end_other ≤ end_exam)
    (t : Task) (s : String) (d : Int)
    (hs : t.due_date = some s) (hd : pyInt s = some d) :
    (t ∈ classified_urgent pages start_v end_exam end_other ↔
      t ∈ visitedRecords pages ∧ is_exam_task t = true ∧ start_v ≤ d ∧ d ≤ end_exam) ∧
    (t ∈ classified_regular pages start_v end_exam end_other ↔
      t ∈ visitedRecords pages ∧ is_exam_task t = false ∧ start_v ≤ d ∧ d ≤ end_other) ∧
    ¬(t ∈ classified_urgent pages start_v end_exam end_other ∧
      t ∈ classified_regular pages start_v end_exam end_other) := by
  have hmem_f : t ∈ fetch_due_tasks pages start_v end_exam ↔
      t ∈ visitedRecords pages ∧ (start_v ≤ d ∧ d ≤ end_exam) := by
    rw [fetch_eq_filter_visited, List.mem_filter,
      keepRecord_parse start_v end_exam t s d hs hd]
    simp
  have hmem_m : t ∈ merged_filter (fetch_due_tasks pages start_v end_exam)
        end_exam end_other ↔
      (t ∈ visitedRecords pages ∧ (start_v ≤ d ∧ d ≤ end_exam)) ∧
        (if is_exam_task t then d ≤ end_exam else d ≤ end_other) := by
    rw [merged_filter, List.mem_filter, hmem_f]
    constructor
    · rintro ⟨h1, h2⟩
      refine ⟨h1, ?_⟩
      simp only [hs, hd] at h2
      by_cases hex : is_exam_task t
      · rw [if_pos hex] at h2 ⊢
        simpa [within] using h2
      · rw [if_neg hex] at h2 ⊢
        simpa [within] using h2
    · rintro ⟨h1, h2⟩
      refine ⟨h1, ?_⟩
      simp only [hs, hd]
      by_cases hex : is_exam_task t
      · rw [if_pos hex] at h2 ⊢
        simpa [within] using h2
      · rw [if_neg hex] at h2 ⊢
        simpa [within] using h2
  have hu : t ∈ classified_urgent pages start_v end_exam end_other ↔
      t ∈ merged_filter (fetch_due_tasks pages start_v end_exam) end_exam end_other ∧
        is_exam_task t = true := by
    rw [classified_urgent, examsOf, List.mem_filter, tasks_sorted, List.mem_mergeSort]
  have hr : t ∈ classified_regular pages start_v end_exam end_other ↔
      t ∈ merged_filter (fetch_due_tasks pages start_v end_exam) end_exam end_other ∧
        is_exam_task t = false := by
    rw [classified_regular, othersOf, List.mem_filter, tasks_sorted, List.mem_mergeSort]
    simp
  refine ⟨?_, ?_, ?_⟩
  · rw [hu, hmem_m]
    constructor
    · rintro ⟨⟨⟨hv, hb⟩, -⟩, hex⟩
      exact ⟨hv, hex, hb⟩
    · rintro ⟨hv, hex, hb⟩
      exact ⟨⟨⟨hv, hb⟩, by rw [if_pos hex]; exact hb.2⟩, hex⟩
  · rw [hr, hmem_m]
    constructor
    · rintro ⟨⟨⟨hv, hb⟩, hw⟩, hex⟩
      rw [if_neg (by simp [hex])] at hw
      exact ⟨hv, hex, hb.1, hw⟩
    · rintro ⟨hv, hex, hlo, hhi⟩
      refine ⟨⟨⟨hv, hlo, by omega⟩, ?_⟩, hex⟩
      rw [if_neg (by simp [hex])]
      exact hhi
  · rintro ⟨h1, h2⟩
    rw [hu] at h1
    rw [hr] at h2
    rw [h1.2] at h2
    exact absurd h2.2 (by simp)

/-- C1, evaluated on the spec's scenario (now at the epoch, regular window
ending at ms 691199000, urgent window ending at ms 1295999000): the
exam-tagged task due on day 9 is classified urgent and not regular. -/
theorem classification_correct_witness :
    (taskExamB ∈ classified_urgent [[taskA, taskExamB, taskExamC]] 0 1295999000 691199000 ↔
      taskExamB ∈ visitedRecords [[taskA, taskExamB, taskExamC]] ∧
        is_exam_task taskExamB = true ∧ (0 : Int) ≤ 777600000 ∧
        (777600000 : Int) ≤ 1295999000) ∧
    (taskExamB ∈ classified_regular [[taskA, taskExamB, taskExamC]] 0 1295999000 691199000 ↔
      taskExamB ∈ visitedRecords [[taskA, taskExamB, taskExamC]] ∧
        is_exam_task taskExamB = false ∧ (0 : Int) ≤ 777600000 ∧
        (777600000 : Int) ≤ 691199000) ∧
    ¬(taskExamB ∈ classified_urgent [[taskA, taskExamB, taskExamC]] 0 1295999000 691199000 ∧
      taskExamB ∈ classified_regular [[taskA, taskExamB, taskExamC]] 0 1295999000 691199000) :=
  classification_correct [[taskA, taskExamB, taskExamC]] 0 1295999000 691199000
    (by decide) taskExamB "777600000" 777600000 rfl (by decide)

/-- C6. The fetch returns exactly the visited upstream records whose
due date is present, parses, and lies within the inclusive bounds: the
result is the retention filter of the visited records (so a malformed
record is skipped without affecting the rest), every returned record has
a parseable in-bounds due date, and every visited record with a parseable
in-bounds due date is returned. -/
theorem fetch_retention (pages : List (List Task)) (lo hi : Int) :
    fetch_due_tasks pages lo hi = (visitedRecords pages).filter (keepRecord lo hi) ∧
    (∀ t ∈ fetch_due_tasks pages lo hi, ∃ s d, t.due_date = some s ∧
      pyInt s = some d ∧ lo ≤ d ∧ d ≤ hi) ∧
    (∀ t ∈ visitedRecords pages, ∀ s d, t.due_date = some s → pyInt s = some d →
      lo ≤ d → d ≤ hi → t ∈ fetch_due_tasks pages lo hi) := by
  refine ⟨fetch_eq_filter_visited pages lo hi, ?_, ?_⟩
  · intro t ht
    rw [fetch_eq_filter_visited, List.mem_filter] at ht
    obtain ⟨-, hk⟩ := ht
    cases hdd : t.due_date with
    | none =>
      unfold keepRecord strFalsy at hk
      rw [hdd] at hk
      simp at hk
    | some s =>
      cases hp : pyInt s with
      | none =>
        unfold keepRecord strFalsy at hk
        rw [hdd] at hk
        by_cases hse : s = ""
        · simp [hse] at hk
        · simp [hse, hp] at hk
      | some d =>
        rw [keepRecord_parse lo hi t s d hdd hp] at hk
        simp only [decide_eq_true_eq] at hk
        exact ⟨s, d, rfl, hp, hk.1, hk.2⟩
  · intro t hv s d hs hd hlo hhi
    rw [fetch_eq_filter_visited, List.mem_filter]
    refine ⟨hv, ?_⟩
    rw [keepRecord_parse lo hi t s d hs hd]
    simp [hlo, hhi]

/-- C7 counterexample: two of the claim's error classes share exit code 2.
A run with the token missing (missing required configuration) and a run
whose token owns no workspaces (no workspaces available) both terminate
with exit code 2, so the classes do not each get a distinct code. -/
theorem exit_code_collision :
    (main_run worldMissingConfig).1 = 2 ∧ (main_run worldNoTeams).1 = 2 := by
  constructor <;> rfl

/-- C7 as amended: every fatal error class exits nonzero and 0 is reserved
for success, but the codes are not pairwise distinct across classes:
missing configuration exits 2, no workspaces also exits 2, a required
workspace choice exits 1, a fetch exception exits 3, and a delivery
failure exits 4 (the only failing code the send loop produces). -/
theorem exit_codes_amended (w : MainWorld) (b : Bool) (c : Nat) :
    (strFalsy w.token = true ∨ strFalsy w.webhook = true → (main_run w).1 = 2) ∧
    (strFalsy w.token = false → strFalsy w.webhook = false →
      strFalsy w.team_id = true → w.teams = [] → (main_run w).1 = 2) ∧
    (strFalsy w.token = false → strFalsy w.webhook = false →
      strFalsy w.team_id = true → w.teams ≠ [] → (main_run w).1 = 1) ∧
    (strFalsy w.token = false → strFalsy w.webhook = false →
      strFalsy w.team_id = false → w.fetch_exc = some b → (main_run w).1 = 3) ∧
    (strFalsy w.token = false → strFalsy w.webhook = false →
      strFalsy w.team_id = false → w.fetch_exc = none →
      send_discord_message w.statusOf (digest_content w).data = none →
      (main_run w).1 = 0) ∧
    (strFalsy w.token = false → strFalsy w.webhook = false →
      strFalsy w.team_id = false → w.fetch_exc = none →
      send_discord_message w.statusOf (digest_content w).data = some c →
      (main_run w).1 = 4) := by
  refine ⟨fun h => ?_, fun h1 h2 h3 h4 => ?_, fun h1 h2 h3 h4 => ?_,
    fun h1 h2 h3 h4 => ?_, fun h1 h2 h3 h4 h5 => ?_, fun h1 h2 h3 h4 h5 => ?_⟩
  · rcases h with h | h <;> simp [main_run, h]
  · simp [main_run, h1, h2, h3, h4]
  · have : w.teams.isEmpty = false := by
      cases hte : w.teams
      · exact absurd hte h4
      · rfl
    simp [main_run, h1, h2, h3, this]
  · simp [main_run, h1, h2, h3, h4]
  · simp [main_run, h1, h2, h3, h4, h5]
  · have hc : c = 4 := send_loop_eq_four w.statusOf (send_parts (digest_content w).data) 0 c h5
    subst hc
    simp [main_run, h1, h2, h3, h4, h5]

/-- C7 as amended, evaluated: a delivery failure on a fully configured run
(webhook always answers 500) exits 4, and a fetch exception exits 3. -/
theorem exit_codes_amended_witness :
    (main_run ⟨some "tok", some "42", some "https://hook", 7, 14, false, [], Except.ok 1, 0,
      fun _ => [], none, none, Except.error (), fun _ => 500⟩).1 = 4 ∧
    (main_run ⟨some "tok", some "42", some "https://hook", 7, 14, false, [], Except.ok 1, 0,
      fun _ => [], some true, none, Except.error (), fun _ => 200⟩).1 = 3 := by
  constructor
  · exact (exit_codes_amended _ true 4).2.2.2.2.2 rfl rfl rfl rfl (by set_option maxRecDepth 100000 in decide)
  · exact (exit_codes_amended _ true 0).2.2.2.1 rfl rfl rfl rfl

/-- C9. When the assignee-only flag is set and the user-id lookup raises,
the run proceeds with no assignee filter and behaves exactly as if the
flag were unset: same exit code and same delivered digest. -/
theorem assignee_lookup_fallback (w : MainWorld) (e : String) :
    assignee_resolved true (Except.error e) = none ∧
    main_run { w with only_me := true, user_lookup := Except.error e } =
      main_run { w with only_me := false } := by
  constructor
  · rfl
  · simp [main_run, digest_content, assignee_resolved]

end ClickupDigest
